import Mathlib

/-!
Random-walk mobility model (src/node/random-walk-mobility-model.cc).

Shallow embedding of `RandomWalkMobilityModelParameters` and
`RandomWalkMobilityModel`.

Modelling conventions.

* A C++ `double` that holds a finite value is an element of a linearly ordered
  field `R`; arithmetic on it is exact (rounding and overflow are not
  modelled).  The definitions are polymorphic in `R`, so they evaluate over
  `ℚ` and are reasoned about over `ℝ`.
* The one place where the source can manufacture a non-finite value out of
  finite operands is the division `distance / sqrt (...)` in `Reset`; its
  result is a `Double R`, which keeps the IEEE-754 special values apart.
* `std::cos`, `std::sin` and `sqrt` come from the C library; they are passed
  to `Reset` as a `Libm R`.
* `Simulator::Now ()` is the argument `now`; a `Time` is a number of seconds
  and `Time::GetSeconds` is the identity.
* The values returned by `UniformVariable::GetSingleValue` and
  `m_randomDirection.GetValue ()` are the arguments `speed` and `direction`.
* `NotifyCourseChange ()` and `Simulator::Schedule (delay, &Reset, this)` are
  recorded in the `Simulation` a model lives in.
* The scheduler delivering a scheduled event is `fireReset`; the source file
  holds no code of the scheduler.
-/

namespace RandomWalk

/-- The enumeration `RandomWalkMobilityModelParameters::Mode`. -/
inductive Mode where
  | MODE_DISTANCE
  | MODE_TIME
  deriving DecidableEq, Repr

/-- Value of a `double` expression whose operands are finite: a finite value
or one of the IEEE-754 special values. -/
inductive Double (R : Type) where
  | finite (v : R)
  | posInf
  | negInf
  | nan
  deriving DecidableEq, Repr

/-- The `double` division `a / b` of finite operands.  A zero divisor is the
positive zero (the only zero `sqrt` of a sum of squares returns): the quotient
is then an infinity carrying the sign of `a`, or NaN when `a` is zero too. -/
def Double.div {R : Type} [LinearOrderedField R] (a b : R) : Double R :=
  if b = 0 then
    if a = 0 then Double.nan
    else if 0 < a then Double.posInf
    else Double.negInf
  else Double.finite (a / b)

/-- Whether a `double` is neither an infinity nor NaN. -/
def Double.isFinite {R : Type} : Double R → Bool
  | Double.finite _ => true
  | _ => false

/-- The C library functions used by `Reset`. -/
structure Libm (R : Type) where
  cos : R → R
  sin : R → R
  sqrt : R → R

/-- The process-wide default values `g_minSpeed`, `g_maxSpeed`, `g_mode`,
`g_modeDistance` and `g_modeTime` (what their `GetValue ()` returns). -/
structure DefaultValues (R : Type) where
  g_minSpeed : R
  g_maxSpeed : R
  g_mode : Mode
  g_modeDistance : R
  g_modeTime : R
  deriving DecidableEq, Repr

/-- The default values the registry starts with (lines 38-56). -/
def initialDefaults (R : Type) [LinearOrderedField R] : DefaultValues R :=
  { g_minSpeed := 1 / 10
    g_maxSpeed := 1 / 2
    g_mode := Mode.MODE_DISTANCE
    g_modeDistance := 10
    g_modeTime := 1 }

/-- The class `RandomWalkMobilityModelParameters`. -/
structure RandomWalkMobilityModelParameters (R : Type) where
  m_minSpeed : R
  m_maxSpeed : R
  m_mode : Mode
  m_modeDistance : R
  m_modeTime : R
  deriving DecidableEq, Repr

/-- The constructor `RandomWalkMobilityModelParameters ()`: every field is read
from the current default values. -/
def RandomWalkMobilityModelParameters.Create {R : Type} (g : DefaultValues R) :
    RandomWalkMobilityModelParameters R :=
  { m_minSpeed := g.g_minSpeed
    m_maxSpeed := g.g_maxSpeed
    m_mode := g.g_mode
    m_modeDistance := g.g_modeDistance
    m_modeTime := g.g_modeTime }

/-- The method `RandomWalkMobilityModelParameters::IsDefault`. -/
def RandomWalkMobilityModelParameters.IsDefault {R : Type} [DecidableEq R]
    (g : DefaultValues R) (p : RandomWalkMobilityModelParameters R) : Bool :=
  if p.m_minSpeed ≠ g.g_minSpeed ∨
      p.m_maxSpeed ≠ g.g_maxSpeed ∨
      p.m_mode ≠ g.g_mode ∨
      p.m_modeDistance ≠ g.g_modeDistance ∨
      p.m_modeTime ≠ g.g_modeTime then
    false
  else
    true

/-- The method `RandomWalkMobilityModelParameters::SetSpeedBounds`.  The source
method returns `void` and has no failing path. -/
def RandomWalkMobilityModelParameters.SetSpeedBounds {R : Type}
    (minSpeed maxSpeed : R) (p : RandomWalkMobilityModelParameters R) :
    RandomWalkMobilityModelParameters R :=
  { p with m_minSpeed := minSpeed, m_maxSpeed := maxSpeed }

/-- The static method `RandomWalkMobilityModel::GetDefaultParameters`.  The
function-local static `parameters` is the argument `cache`: `none` before the
first call, which initialises it from the defaults of that moment.  The result
is the returned parameters together with the static after the call. -/
def GetDefaultParameters {R : Type} [DecidableEq R] (g : DefaultValues R)
    (cache : Option (RandomWalkMobilityModelParameters R)) :
    RandomWalkMobilityModelParameters R × Option (RandomWalkMobilityModelParameters R) :=
  let parameters :=
    match cache with
    | none => RandomWalkMobilityModelParameters.Create g
    | some p => p
  let parameters :=
    if !parameters.IsDefault g then RandomWalkMobilityModelParameters.Create g
    else parameters
  (parameters, some parameters)

/-- The value type `Position`. -/
structure Position (R : Type) where
  x : R
  y : R
  z : R
  deriving DecidableEq, Repr

/-- The data members of `RandomWalkMobilityModel`. -/
structure RandomWalkMobilityModel (R : Type) where
  m_x : R
  m_y : R
  m_dx : R
  m_dy : R
  m_prevTime : R
  m_parameters : RandomWalkMobilityModelParameters R
  deriving DecidableEq, Repr

/-- One call `Simulator::Schedule (delay, &RandomWalkMobilityModel::Reset, this)`:
the simulated time of the call and the delay it was given. -/
structure ScheduledReset (R : Type) where
  calledAt : R
  delay : Double R
  deriving DecidableEq, Repr

/-- A model together with what it has done to its collaborators: the number of
`NotifyCourseChange ()` calls and the `Reset` events it has handed to
`Simulator::Schedule` (newest first). -/
structure Simulation (R : Type) where
  model : RandomWalkMobilityModel R
  courseChanges : Nat
  pending : List (ScheduledReset R)
  deriving DecidableEq, Repr

/-- The method `RandomWalkMobilityModel::Update`. -/
def Update {R : Type} [LinearOrderedField R] (now : R)
    (m : RandomWalkMobilityModel R) : RandomWalkMobilityModel R :=
  let deltaTime := now - m.m_prevTime
  let deltaS := deltaTime
  { m with
    m_prevTime := now
    m_x := m.m_x + m.m_dx * deltaS
    m_y := m.m_y + m.m_dy * deltaS }

/-- The method `RandomWalkMobilityModel::DoGet`: the position returned and the
model after the call (`Update` writes the mutable members). -/
def DoGet {R : Type} [LinearOrderedField R] (now : R)
    (m : RandomWalkMobilityModel R) : Position R × RandomWalkMobilityModel R :=
  let m := Update now m
  (Position.mk m.m_x m.m_y 0, m)

/-- The method `RandomWalkMobilityModel::DoSet`. -/
def DoSet {R : Type} [LinearOrderedField R] (now : R) (position : Position R)
    (w : Simulation R) : Simulation R :=
  let changed : Bool :=
    if w.model.m_x ≠ position.x ∨ w.model.m_y ≠ position.y then true else false
  let m := { w.model with m_x := position.x, m_y := position.y, m_prevTime := now }
  if changed then
    { w with model := m, courseChanges := w.courseChanges + 1 }
  else
    { w with model := m }

/-- The delay `Reset` computes for the model it has just given a new velocity
(lines 137-146). -/
def resetDelay {R : Type} [LinearOrderedField R] (L : Libm R)
    (m : RandomWalkMobilityModel R) : Double R :=
  if m.m_parameters.m_mode = Mode.MODE_TIME then
    Double.finite m.m_parameters.m_modeTime
  else
    let distance := m.m_parameters.m_modeDistance
    Double.div distance (L.sqrt (m.m_dx * m.m_dx + m.m_dy * m.m_dy))

/-- The method `RandomWalkMobilityModel::Reset`.  The source method returns
`void` and has no failing path: it always reaches `Simulator::Schedule`. -/
def Reset {R : Type} [LinearOrderedField R] (L : Libm R) (now speed direction : R)
    (w : Simulation R) : Simulation R :=
  let m := Update now w.model
  let dx := L.cos direction * speed
  let dy := L.sin direction * speed
  let m := { m with m_dx := dx, m_dy := dy }
  let delay := resetDelay L m
  { model := m
    courseChanges := w.courseChanges + 1
    pending := ScheduledReset.mk now delay :: w.pending }

/-- A model at rest at the origin at time 0, created under the parameters `p`,
with no notification made and no event scheduled. -/
def restingSimulation {R : Type} [LinearOrderedField R]
    (p : RandomWalkMobilityModelParameters R) : Simulation R :=
  { model :=
      { m_x := 0, m_y := 0, m_dx := 0, m_dy := 0, m_prevTime := 0, m_parameters := p }
    courseChanges := 0
    pending := [] }

/-- Parameters of the scenario `minSpeed = maxSpeed = 1`, `mode = DISTANCE`,
`modeDistance = 10`. -/
def distanceScenario (R : Type) [LinearOrderedField R] :
    RandomWalkMobilityModelParameters R :=
  { m_minSpeed := 1, m_maxSpeed := 1, m_mode := Mode.MODE_DISTANCE,
    m_modeDistance := 10, m_modeTime := 1 }

/-- Parameters of the scenario `mode = TIME`, `modeTime = 5s`. -/
def timeScenario (R : Type) [LinearOrderedField R] :
    RandomWalkMobilityModelParameters R :=
  { m_minSpeed := 0, m_maxSpeed := 1, m_mode := Mode.MODE_TIME,
    m_modeDistance := 10, m_modeTime := 5 }

/-- Parameters under which every drawn speed is 0: `minSpeed = maxSpeed = 0`,
`mode = DISTANCE`, `modeDistance = 10`. -/
def zeroSpeedScenario (R : Type) [LinearOrderedField R] :
    RandomWalkMobilityModelParameters R :=
  { m_minSpeed := 0, m_maxSpeed := 0, m_mode := Mode.MODE_DISTANCE,
    m_modeDistance := 10, m_modeTime := 1 }

/-- What a method of `RandomWalkMobilityModelParameters` runs on: the
process-wide default values and the instance the method is called on. -/
structure ParametersCall (R : Type) where
  defaults : DefaultValues R
  object : RandomWalkMobilityModelParameters R
  deriving DecidableEq, Repr

/-- The method `RandomWalkMobilityModelParameters::SetSpeedBounds` as a call on
an instance in a process: it assigns `m_minSpeed` and `m_maxSpeed` of the
instance and nothing else. -/
def ParametersCall.SetSpeedBounds {R : Type} (minSpeed maxSpeed : R)
    (c : ParametersCall R) : ParametersCall R :=
  { c with object := c.object.SetSpeedBounds minSpeed maxSpeed }

/-- The bounds a `UniformVariable` is configured with. -/
structure UniformVariable (R : Type) where
  lower : R
  upper : R
  deriving DecidableEq, Repr

/-- The static member `RandomWalkMobilityModel::m_randomDirection` (line 87). -/
def m_randomDirection (R : Type) [LinearOrderedField R] : UniformVariable R :=
  UniformVariable.mk 0 (2 * 3.141592)

/-- Modelled from the spec: what `UniformVariable::GetValue` may return, the
random source being outside the source file: a value of the half-open interval
between the configured bounds. -/
def UniformVariable.draws {R : Type} [LinearOrderedField R] (u : UniformVariable R)
    (d : R) : Prop :=
  u.lower ≤ d ∧ d < u.upper

/-- The constructor `RandomWalkMobilityModel (double x, double y)` run at the
simulated time `now`, under the defaults `g` and the static `cache` of
`GetDefaultParameters`; `speed` and `direction` are what its `Reset` draws.
The result is the new model with the calls it has made, and the static after
the construction. -/
def RandomWalkMobilityModel.constructAt {R : Type} [LinearOrderedField R] (L : Libm R)
    (g : DefaultValues R) (cache : Option (RandomWalkMobilityModelParameters R))
    (now speed direction x y : R) :
    Simulation R × Option (RandomWalkMobilityModelParameters R) :=
  let r := GetDefaultParameters g cache
  let m : RandomWalkMobilityModel R :=
    { m_x := x, m_y := y, m_dx := 0, m_dy := 0, m_prevTime := now, m_parameters := r.1 }
  (Reset L now speed direction { model := m, courseChanges := 0, pending := [] }, r.2)

/-- The constructor `RandomWalkMobilityModel ()`, which places the model at the
origin. -/
def RandomWalkMobilityModel.construct {R : Type} [LinearOrderedField R] (L : Libm R)
    (g : DefaultValues R) (cache : Option (RandomWalkMobilityModelParameters R))
    (now speed direction : R) :
    Simulation R × Option (RandomWalkMobilityModelParameters R) :=
  let r := GetDefaultParameters g cache
  let m : RandomWalkMobilityModel R :=
    { m_x := 0, m_y := 0, m_dx := 0, m_dy := 0, m_prevTime := now, m_parameters := r.1 }
  (Reset L now speed direction { model := m, courseChanges := 0, pending := [] }, r.2)

/-- Modelled from the spec: the scheduler (`Simulator`), which the source file
only calls.  The event at index `i` of the pending ones, scheduled at the time
`calledAt` with a finite delay `v`, is delivered as a direct call of `Reset` at
the simulated time `calledAt + v` and leaves the queue when it is delivered;
`speed` and `direction` are what that `Reset` draws.  An event whose delay is
not finite is never delivered. -/
def fireReset {R : Type} [LinearOrderedField R] (L : Libm R) (i : Nat)
    (speed direction : R) (w : Simulation R) : Option (Simulation R) :=
  match w.pending.get? i with
  | none => none
  | some e =>
    match e.delay with
    | Double.finite v =>
      some (Reset L (e.calledAt + v) speed direction
        { w with pending := w.pending.eraseIdx i })
    | _ => none

/-- What can happen to a constructed model that has not been disposed of: the
scheduler delivers a pending `Reset`, or a client calls `DoGet` or `DoSet`. -/
inductive Action (R : Type) where
  | fire (i : Nat) (speed direction : R)
  | get (now : R)
  | set (now : R) (position : Position R)
  deriving DecidableEq, Repr

/-- One step of a model; `none` when the scheduler has no such event to
deliver. -/
def step {R : Type} [LinearOrderedField R] (L : Libm R) (w : Simulation R) :
    Action R → Option (Simulation R)
  | Action.fire i speed direction => fireReset L i speed direction w
  | Action.get now => some { w with model := (DoGet now w.model).2 }
  | Action.set now position => some (DoSet now position w)

/-- The steps `as` taken in order. -/
def run {R : Type} [LinearOrderedField R] (L : Libm R) :
    List (Action R) → Simulation R → Option (Simulation R)
  | [], w => some w
  | a :: as, w =>
    match step L w a with
    | none => none
    | some w' => run L as w'

/-- Default values of the scenario `mode = TIME`, `modeTime = 5s`. -/
def timeDefaults (R : Type) [LinearOrderedField R] : DefaultValues R :=
  { g_minSpeed := 1 / 10, g_maxSpeed := 1 / 2, g_mode := Mode.MODE_TIME,
    g_modeDistance := 10, g_modeTime := 5 }

/-! ## Lazy integration -/

section Integration

variable {R : Type} [LinearOrderedField R]

theorem Update_m_dx (now : R) (m : RandomWalkMobilityModel R) :
    (Update now m).m_dx = m.m_dx := rfl

theorem Update_m_dy (now : R) (m : RandomWalkMobilityModel R) :
    (Update now m).m_dy = m.m_dy := rfl

theorem Update_m_parameters (now : R) (m : RandomWalkMobilityModel R) :
    (Update now m).m_parameters = m.m_parameters := rfl

theorem Update_m_x (now : R) (m : RandomWalkMobilityModel R) :
    (Update now m).m_x = m.m_x + m.m_dx * (now - m.m_prevTime) := rfl

theorem Update_m_y (now : R) (m : RandomWalkMobilityModel R) :
    (Update now m).m_y = m.m_y + m.m_dy * (now - m.m_prevTime) := rfl

/-- The position a model is heading for at time `t` does not change when the
model is brought up to date at some other time `now`. -/
theorem Update_Update (now t : R) (m : RandomWalkMobilityModel R) :
    Update t (Update now m) = Update t m := by
  cases m
  simp only [Update, RandomWalkMobilityModel.mk.injEq, and_true, true_and]
  constructor <;> ring

/-- C8: `Update` is idempotent at a fixed simulated time: a second `Update` at
the same `now` leaves the whole model as the first one left it, and two
consecutive `DoGet` reads at the same time return the same position. -/
theorem Update_idempotent (now : R) (m : RandomWalkMobilityModel R) :
    Update now (Update now m) = Update now m ∧
      (DoGet now (DoGet now m).2).1 = (DoGet now m).1 ∧
      (DoGet now (DoGet now m).2).2 = (DoGet now m).2 := by
  have h : Update now (Update now m) = Update now m := Update_Update now now m
  refine ⟨h, ?_, h⟩
  show Position.mk (Update now (Update now m)).m_x (Update now (Update now m)).m_y 0 =
    Position.mk (Update now m).m_x (Update now m).m_y 0
  rw [h]

end Integration

/-! ## Writing a position -/

section Writing

variable {R : Type} [LinearOrderedField R]

theorem DoSet_model (now : R) (p : Position R) (w : Simulation R) :
    (DoSet now p w).model =
      { w.model with m_x := p.x, m_y := p.y, m_prevTime := now } := by
  unfold DoSet
  split <;> rfl

theorem DoSet_pending (now : R) (p : Position R) (w : Simulation R) :
    (DoSet now p w).pending = w.pending := by
  unfold DoSet
  split <;> rfl

theorem DoSet_courseChanges (now : R) (p : Position R) (w : Simulation R) :
    (DoSet now p w).courseChanges =
      if p.x = w.model.m_x ∧ p.y = w.model.m_y then w.courseChanges
      else w.courseChanges + 1 := by
  unfold DoSet
  by_cases hx : w.model.m_x = p.x
  · by_cases hy : w.model.m_y = p.y
    · simp [hx, hy]
    · have hy' : ¬ p.y = w.model.m_y := fun h => hy h.symm
      simp [hx, hy, hy']
  · have hx' : ¬ p.x = w.model.m_x := fun h => hx h.symm
    simp [hx, hx']

/-- C4, as the claim states it, fails: on a model stored at `(0, 0)` the
position `(0, 0, 1)` differs from the stored position `(0, 0, 0)`, yet
`DoSet` makes no course-change notification. -/
theorem DoSet_notifies_iff_differs_counterexample :
    Position.mk (0 : ℚ) 0 1 ≠
        Position.mk (restingSimulation (distanceScenario ℚ)).model.m_x
          (restingSimulation (distanceScenario ℚ)).model.m_y 0 ∧
      (DoSet 0 (Position.mk (0 : ℚ) 0 1)
          (restingSimulation (distanceScenario ℚ))).courseChanges =
        (restingSimulation (distanceScenario ℚ)).courseChanges := by
  constructor
  · decide
  · rfl

/-- C4, amended: `DoSet (p)` makes a course-change notification if and only if
`(p.x, p.y)` differs from the stored `(m_x, m_y)` as it is before the call;
`p.z` plays no part.  With equal `(x, y)` no notification is made, otherwise
exactly one. -/
theorem DoSet_notifies_iff_xy_differs (now : R) (p : Position R) (w : Simulation R) :
    ((DoSet now p w).courseChanges = w.courseChanges + 1 ↔
        (p.x, p.y) ≠ (w.model.m_x, w.model.m_y)) ∧
      ((DoSet now p w).courseChanges = w.courseChanges ↔
        (p.x, p.y) = (w.model.m_x, w.model.m_y)) := by
  rw [DoSet_courseChanges]
  by_cases h : p.x = w.model.m_x ∧ p.y = w.model.m_y
  · simp [h]
  · have h' : ¬ (p.x, p.y) = (w.model.m_x, w.model.m_y) := by
      intro e
      exact h ⟨congrArg Prod.fst e, congrArg Prod.snd e⟩
    simp [h, h']

/-- C9: `DoSet (p)` at time `now` stores `(p.x, p.y)` as they are, whatever
motion was pending, sets `m_prevTime` to `now`, and leaves the velocity, the
parameters and the scheduled `Reset` events as they were. -/
theorem DoSet_frame (now : R) (p : Position R) (w : Simulation R) :
    (DoSet now p w).model.m_x = p.x ∧
      (DoSet now p w).model.m_y = p.y ∧
      (DoSet now p w).model.m_prevTime = now ∧
      (DoSet now p w).model.m_dx = w.model.m_dx ∧
      (DoSet now p w).model.m_dy = w.model.m_dy ∧
      (DoSet now p w).model.m_parameters = w.model.m_parameters ∧
      (DoSet now p w).pending = w.pending := by
  rw [DoSet_model, DoSet_pending]
  exact ⟨rfl, rfl, rfl, rfl, rfl, rfl, rfl⟩

end Writing

/-! ## Drawing a new velocity -/

section Resetting

variable {R : Type} [LinearOrderedField R]

theorem Reset_model (L : Libm R) (now speed direction : R) (w : Simulation R) :
    (Reset L now speed direction w).model =
      { Update now w.model with
        m_dx := L.cos direction * speed, m_dy := L.sin direction * speed } := rfl

theorem Reset_pending (L : Libm R) (now speed direction : R) (w : Simulation R) :
    (Reset L now speed direction w).pending =
      ScheduledReset.mk now (resetDelay L (Reset L now speed direction w).model) ::
        w.pending := rfl

theorem Reset_courseChanges (L : Libm R) (now speed direction : R) (w : Simulation R) :
    (Reset L now speed direction w).courseChanges = w.courseChanges + 1 := rfl

theorem Reset_m_parameters (L : Libm R) (now speed direction : R) (w : Simulation R) :
    (Reset L now speed direction w).model.m_parameters = w.model.m_parameters := rfl

/-- C3: in TIME mode `Reset` hands the scheduler the delay `m_modeTime`,
whatever speed and direction were drawn, and leaves the parameters as they
were, so the `Reset` it schedules does the same. -/
theorem Reset_time_delay (L : Libm R) (now speed direction : R) (w : Simulation R)
    (hmode : w.model.m_parameters.m_mode = Mode.MODE_TIME) :
    (Reset L now speed direction w).pending =
        ScheduledReset.mk now (Double.finite w.model.m_parameters.m_modeTime) ::
          w.pending ∧
      (Reset L now speed direction w).model.m_parameters = w.model.m_parameters := by
  refine ⟨?_, rfl⟩
  rw [Reset_pending]
  simp only [resetDelay, Reset_m_parameters, hmode, if_true]

end Resetting

/-- C3 at the scenario `mode = TIME`, `modeTime = 5s`, with a drawn speed 0. -/
theorem Reset_time_delay_witness :
    (restingSimulation (timeScenario ℝ)).model.m_parameters.m_mode = Mode.MODE_TIME ∧
      (Reset (Libm.mk Real.cos Real.sin Real.sqrt) 0 0 0
          (restingSimulation (timeScenario ℝ))).pending =
        [ScheduledReset.mk 0 (Double.finite 5)] :=
  ⟨rfl, (Reset_time_delay (Libm.mk Real.cos Real.sin Real.sqrt) 0 0 0
    (restingSimulation (timeScenario ℝ)) rfl).1⟩

/-- C5, as the claim states it, fails: with `minSpeed = maxSpeed = 0`, DISTANCE
mode and `modeDistance = 10`, a `Reset` that draws the speed 0 does not stop
with an error; it notifies a course change and schedules one event whose delay
is `+Inf`. -/
theorem Reset_zero_speed_fails_fast_counterexample :
    (restingSimulation (zeroSpeedScenario ℝ)).model.m_parameters.m_mode =
        Mode.MODE_DISTANCE ∧
      (Reset (Libm.mk Real.cos Real.sin Real.sqrt) 0 0 0
          (restingSimulation (zeroSpeedScenario ℝ))).pending =
        [ScheduledReset.mk 0 Double.posInf] ∧
      (Reset (Libm.mk Real.cos Real.sin Real.sqrt) 0 0 0
          (restingSimulation (zeroSpeedScenario ℝ))).courseChanges = 1 := by
  refine ⟨rfl, ?_, rfl⟩
  rw [Reset_pending]
  simp [resetDelay, Reset_model, Update, restingSimulation, zeroSpeedScenario, Double.div]

/-- C5, amended: in DISTANCE mode, when the drawn speed is 0, `Reset` has no
failing path.  It stores the velocity `(0, 0)`, notifies one course change and
schedules one event, whose delay is the quotient of `m_modeDistance` by zero:
`+Inf` for a positive `m_modeDistance`, `-Inf` for a negative one, NaN for
zero; the delay is never finite. -/
theorem Reset_zero_speed_schedules_nonfinite (now d : ℝ) (w : Simulation ℝ)
    (hmode : w.model.m_parameters.m_mode = Mode.MODE_DISTANCE) :
    (Reset (Libm.mk Real.cos Real.sin Real.sqrt) now 0 d w).model.m_dx = 0 ∧
      (Reset (Libm.mk Real.cos Real.sin Real.sqrt) now 0 d w).model.m_dy = 0 ∧
      (Reset (Libm.mk Real.cos Real.sin Real.sqrt) now 0 d w).courseChanges =
        w.courseChanges + 1 ∧
      (Reset (Libm.mk Real.cos Real.sin Real.sqrt) now 0 d w).pending =
        ScheduledReset.mk now
            (if w.model.m_parameters.m_modeDistance = 0 then Double.nan
              else if 0 < w.model.m_parameters.m_modeDistance then Double.posInf
              else Double.negInf) ::
          w.pending ∧
      (∀ e ∈ (Reset (Libm.mk Real.cos Real.sin Real.sqrt) now 0 d w).pending,
        e ∈ w.pending ∨ (e.calledAt = now ∧ e.delay.isFinite = false)) := by
  have hp : (Reset (Libm.mk Real.cos Real.sin Real.sqrt) now 0 d w).pending =
      ScheduledReset.mk now
          (if w.model.m_parameters.m_modeDistance = 0 then Double.nan
            else if 0 < w.model.m_parameters.m_modeDistance then Double.posInf
            else Double.negInf) ::
        w.pending := by
    rw [Reset_pending]
    simp [resetDelay, Reset_model, Update_m_parameters, hmode, Double.div]
  refine ⟨?_, ?_, rfl, hp, ?_⟩
  · simp [Reset_model]
  · simp [Reset_model]
  · intro e he
    rw [hp, List.mem_cons] at he
    rcases he with rfl | he
    · right
      refine ⟨rfl, ?_⟩
      show Double.isFinite _ = false
      split_ifs <;> rfl
    · exact Or.inl he

/-- C5, amended, at `minSpeed = maxSpeed = 0`, `modeDistance = 10`. -/
theorem Reset_zero_speed_schedules_nonfinite_witness :
    (restingSimulation (zeroSpeedScenario ℝ)).model.m_parameters.m_mode =
        Mode.MODE_DISTANCE ∧
      (Reset (Libm.mk Real.cos Real.sin Real.sqrt) 0 0 0
          (restingSimulation (zeroSpeedScenario ℝ))).pending =
        ScheduledReset.mk 0
            (if (restingSimulation (zeroSpeedScenario ℝ)).model.m_parameters.m_modeDistance = 0
              then Double.nan
              else if 0 < (restingSimulation (zeroSpeedScenario ℝ)).model.m_parameters.m_modeDistance
              then Double.posInf
              else Double.negInf) ::
          (restingSimulation (zeroSpeedScenario ℝ)).pending :=
  ⟨rfl, (Reset_zero_speed_schedules_nonfinite 0 0
    (restingSimulation (zeroSpeedScenario ℝ)) rfl).2.2.2.1⟩

/-! ## Parameters and their defaults -/

section Defaults

variable {R : Type} [LinearOrderedField R]

theorem IsDefault_iff (g : DefaultValues R) (p : RandomWalkMobilityModelParameters R) :
    p.IsDefault g = true ↔ p = RandomWalkMobilityModelParameters.Create g := by
  cases p
  cases g
  simp only [RandomWalkMobilityModelParameters.IsDefault,
    RandomWalkMobilityModelParameters.Create, RandomWalkMobilityModelParameters.mk.injEq]
  constructor
  · intro h
    by_contra hne
    rw [if_pos] at h
    · exact Bool.noConfusion h
    · by_contra hnone
      push_neg at hnone
      exact hne hnone
  · rintro ⟨h1, h2, h3, h4, h5⟩
    simp [h1, h2, h3, h4, h5]

theorem IsDefault_Create (g : DefaultValues R) :
    (RandomWalkMobilityModelParameters.Create g).IsDefault g = true :=
  (IsDefault_iff g _).2 rfl

/-- C6: with a cached snapshot `c`, `GetDefaultParameters` returns `c` and
keeps it as the cache when `c.IsDefault ()` holds, and otherwise returns a
snapshot freshly built from the current defaults and stores that one.  In both
cases, and on the first call as well, the returned parameters have their five
fields equal to the current defaults; a second call under the same defaults
returns the same value, and a call under other defaults `g'` returns
parameters with the fields of `g'`. -/
theorem GetDefaultParameters_spec (g g' : DefaultValues R)
    (c : RandomWalkMobilityModelParameters R)
    (cache : Option (RandomWalkMobilityModelParameters R)) :
    GetDefaultParameters g (some c) =
        (if c.IsDefault g = true then (c, some c)
          else (RandomWalkMobilityModelParameters.Create g,
            some (RandomWalkMobilityModelParameters.Create g))) ∧
      ((GetDefaultParameters g cache).1.m_minSpeed = g.g_minSpeed ∧
        (GetDefaultParameters g cache).1.m_maxSpeed = g.g_maxSpeed ∧
        (GetDefaultParameters g cache).1.m_mode = g.g_mode ∧
        (GetDefaultParameters g cache).1.m_modeDistance = g.g_modeDistance ∧
        (GetDefaultParameters g cache).1.m_modeTime = g.g_modeTime) ∧
      (GetDefaultParameters g cache).2 = some (GetDefaultParameters g cache).1 ∧
      GetDefaultParameters g (GetDefaultParameters g cache).2 =
        GetDefaultParameters g cache ∧
      (GetDefaultParameters g' (GetDefaultParameters g cache).2).1 =
        RandomWalkMobilityModelParameters.Create g' := by
  have hval : ∀ (h : DefaultValues R) (k : Option (RandomWalkMobilityModelParameters R)),
      GetDefaultParameters h k =
        (RandomWalkMobilityModelParameters.Create h,
          some (RandomWalkMobilityModelParameters.Create h)) := by
    intro h k
    cases k with
    | none => simp [GetDefaultParameters, IsDefault_Create]
    | some q =>
      by_cases hq : q.IsDefault h = true
      · have := (IsDefault_iff h q).1 hq
        simp [GetDefaultParameters, hq, this]
      · simp [GetDefaultParameters, hq]
  refine ⟨?_, ?_, ?_, ?_, ?_⟩
  · by_cases hc : c.IsDefault g = true
    · simp [GetDefaultParameters, hc]
    · simp [GetDefaultParameters, hc]
  · rw [hval]
    exact ⟨rfl, rfl, rfl, rfl, rfl⟩
  · rw [hval]
  · rw [hval, hval]
  · rw [hval]

/-- C10, as the claim states it, fails: `SetSpeedBounds (2, 1)` is accepted; it
changes the parameters and leaves them with `minSpeed > maxSpeed`. -/
theorem SetSpeedBounds_rejects_inverted_counterexample :
    (distanceScenario ℚ).SetSpeedBounds 2 1 ≠ distanceScenario ℚ ∧
      ((distanceScenario ℚ).SetSpeedBounds 2 1).m_minSpeed = 2 ∧
      ((distanceScenario ℚ).SetSpeedBounds 2 1).m_maxSpeed = 1 ∧
      ¬ ((distanceScenario ℚ).SetSpeedBounds 2 1).m_minSpeed ≤
          ((distanceScenario ℚ).SetSpeedBounds 2 1).m_maxSpeed := by
  refine ⟨by decide, rfl, rfl, by decide⟩

/-- C10, amended: `SetSpeedBounds (min, max)` makes no check; it stores every
pair, so the parameters it leaves satisfy `minSpeed ≤ maxSpeed` exactly when
`min ≤ max`. -/
theorem SetSpeedBounds_ordered_iff (min max : R) (p : RandomWalkMobilityModelParameters R) :
    (p.SetSpeedBounds min max).m_minSpeed = min ∧
      (p.SetSpeedBounds min max).m_maxSpeed = max ∧
      ((p.SetSpeedBounds min max).m_minSpeed ≤ (p.SetSpeedBounds min max).m_maxSpeed ↔
        min ≤ max) :=
  ⟨rfl, rfl, Iff.rfl⟩

end Defaults

/-! ## Defaults, instances and construction -/

section Construction

variable {R : Type} [LinearOrderedField R]

/-- C11: `IsDefault ()` returns true exactly when the five fields equal the
five current default values; parameters freshly constructed from the defaults
`g` satisfy it under `g`, and under other defaults `g'` they satisfy it only
when `g'` has the same five values. -/
theorem IsDefault_iff_fields (g g' : DefaultValues R)
    (p : RandomWalkMobilityModelParameters R) :
    (p.IsDefault g = true ↔
        p.m_minSpeed = g.g_minSpeed ∧ p.m_maxSpeed = g.g_maxSpeed ∧
          p.m_mode = g.g_mode ∧ p.m_modeDistance = g.g_modeDistance ∧
          p.m_modeTime = g.g_modeTime) ∧
      (RandomWalkMobilityModelParameters.Create g).IsDefault g = true ∧
      ((RandomWalkMobilityModelParameters.Create g).IsDefault g' = true ↔ g' = g) := by
  refine ⟨?_, IsDefault_Create g, ?_⟩
  · rw [IsDefault_iff]
    cases p
    cases g
    simp [RandomWalkMobilityModelParameters.Create]
  · rw [IsDefault_iff]
    cases g
    cases g'
    simp only [RandomWalkMobilityModelParameters.Create,
      RandomWalkMobilityModelParameters.mk.injEq, DefaultValues.mk.injEq]
    constructor
    · rintro ⟨h1, h2, h3, h4, h5⟩
      exact ⟨h1.symm, h2.symm, h3.symm, h4.symm, h5.symm⟩
    · rintro ⟨h1, h2, h3, h4, h5⟩
      exact ⟨h1.symm, h2.symm, h3.symm, h4.symm, h5.symm⟩

theorem GetDefaultParameters_eq (g : DefaultValues R)
    (cache : Option (RandomWalkMobilityModelParameters R)) :
    GetDefaultParameters g cache =
      (RandomWalkMobilityModelParameters.Create g,
        some (RandomWalkMobilityModelParameters.Create g)) := by
  cases cache with
  | none => simp [GetDefaultParameters, IsDefault_Create]
  | some q =>
    by_cases hq : q.IsDefault g = true
    · have := (IsDefault_iff g q).1 hq
      simp [GetDefaultParameters, hq, this]
    · simp [GetDefaultParameters, hq]

theorem constructAt_eq (L : Libm R) (g : DefaultValues R)
    (cache : Option (RandomWalkMobilityModelParameters R)) (now speed direction x y : R) :
    (RandomWalkMobilityModel.constructAt L g cache now speed direction x y).1 =
      Reset L now speed direction
        { model :=
            { m_x := x, m_y := y, m_dx := 0, m_dy := 0, m_prevTime := now,
              m_parameters := RandomWalkMobilityModelParameters.Create g }
          courseChanges := 0
          pending := [] } := by
  simp only [RandomWalkMobilityModel.constructAt, GetDefaultParameters_eq]

theorem construct_eq_constructAt (L : Libm R) (g : DefaultValues R)
    (cache : Option (RandomWalkMobilityModelParameters R)) (now speed direction : R) :
    RandomWalkMobilityModel.construct L g cache now speed direction =
      RandomWalkMobilityModel.constructAt L g cache now speed direction 0 0 := rfl

/-- C13: `Reset` at time `now` brings the position up to date with the velocity
the model had before the call: the stored position is
`(x + dx * (now - prevTime), y + dy * (now - prevTime))` and `m_prevTime = now`;
the new velocity is `(cos (direction) * speed, sin (direction) * speed)`.  The
stored position is the same whatever speed and direction are drawn. -/
theorem Reset_flushes_old_velocity (L : Libm R) (now speed direction speed' direction' : R)
    (w : Simulation R) :
    (Reset L now speed direction w).model.m_x =
        w.model.m_x + w.model.m_dx * (now - w.model.m_prevTime) ∧
      (Reset L now speed direction w).model.m_y =
        w.model.m_y + w.model.m_dy * (now - w.model.m_prevTime) ∧
      (Reset L now speed direction w).model.m_prevTime = now ∧
      (Reset L now speed direction w).model.m_dx = L.cos direction * speed ∧
      (Reset L now speed direction w).model.m_dy = L.sin direction * speed ∧
      (Reset L now speed' direction' w).model.m_x =
        (Reset L now speed direction w).model.m_x ∧
      (Reset L now speed' direction' w).model.m_y =
        (Reset L now speed direction w).model.m_y :=
  ⟨rfl, rfl, rfl, rfl, rfl, rfl, rfl⟩

/-- C17: a model constructed at the simulated time `t`, with `(x, y)` or with no
argument, has `m_prevTime = t` after its first `Reset`, and a `DoGet` at `t`
right after the construction returns `(x, y, 0)`, respectively `(0, 0, 0)`,
whatever speed and direction that `Reset` drew. -/
theorem construct_keeps_position (L : Libm R) (g : DefaultValues R)
    (cache : Option (RandomWalkMobilityModelParameters R)) (t speed direction x y : R) :
    (RandomWalkMobilityModel.constructAt L g cache t speed direction x y).1.model.m_prevTime
        = t ∧
      (DoGet t (RandomWalkMobilityModel.constructAt L g cache t speed direction x y).1.model).1
        = Position.mk x y 0 ∧
      (RandomWalkMobilityModel.construct L g cache t speed direction).1.model.m_prevTime
        = t ∧
      (DoGet t (RandomWalkMobilityModel.construct L g cache t speed direction).1.model).1
        = Position.mk 0 0 0 := by
  have key : ∀ a b : R,
      (RandomWalkMobilityModel.constructAt L g cache t speed direction a b).1.model.m_prevTime
          = t ∧
        (DoGet t
          (RandomWalkMobilityModel.constructAt L g cache t speed direction a b).1.model).1
          = Position.mk a b 0 := by
    intro a b
    rw [constructAt_eq]
    refine ⟨rfl, ?_⟩
    simp [DoGet, Reset, Update]
  rw [construct_eq_constructAt]
  exact ⟨(key x y).1, (key x y).2, (key 0 0).1, (key 0 0).2⟩

end Construction

/-- C12: `SetSpeedBounds (min, max)` sets `m_minSpeed = min` and
`m_maxSpeed = max` on the instance it is called on and leaves `m_mode`,
`m_modeDistance`, `m_modeTime` and the process-wide default values as they
were. -/
theorem SetSpeedBounds_frame {R : Type} (min max : R) (c : ParametersCall R) :
    (c.SetSpeedBounds min max).object.m_minSpeed = min ∧
      (c.SetSpeedBounds min max).object.m_maxSpeed = max ∧
      (c.SetSpeedBounds min max).object.m_mode = c.object.m_mode ∧
      (c.SetSpeedBounds min max).object.m_modeDistance = c.object.m_modeDistance ∧
      (c.SetSpeedBounds min max).object.m_modeTime = c.object.m_modeTime ∧
      (c.SetSpeedBounds min max).defaults = c.defaults ∧
      (c.SetSpeedBounds min max).object = c.object.SetSpeedBounds min max :=
  ⟨rfl, rfl, rfl, rfl, rfl, rfl, rfl⟩

/-- C16: the direction generator is configured with the bounds `0.0` and
`2 * 3.141592`, and a direction `d` drawn between its bounds, the upper one
excluded, satisfies `0 ≤ d < 2 * π`. -/
theorem direction_in_range (d : ℝ) (hd : (m_randomDirection ℝ).draws d) :
    (m_randomDirection ℝ).lower = 0 ∧
      (m_randomDirection ℝ).upper = 2 * 3.141592 ∧
      0 ≤ d ∧ d < 2 * Real.pi := by
  obtain ⟨h0, h1⟩ := hd
  refine ⟨rfl, rfl, h0, lt_trans h1 ?_⟩
  show (2 : ℝ) * 3.141592 < 2 * Real.pi
  have := Real.pi_gt_d6
  linarith

/-- C16 at the drawn direction 1. -/
theorem direction_in_range_witness :
    (m_randomDirection ℝ).draws 1 ∧ (0 : ℝ) ≤ 1 ∧ (1 : ℝ) < 2 * Real.pi := by
  have h : (m_randomDirection ℝ).draws 1 := by
    refine ⟨?_, ?_⟩
    · show (0 : ℝ) ≤ 1
      norm_num
    · show (1 : ℝ) < 2 * 3.141592
      norm_num
  exact ⟨h, (direction_in_range 1 h).2.2.1, (direction_in_range 1 h).2.2.2⟩

/-! ## The chain of scheduled events -/

section Chain

variable {R : Type} [LinearOrderedField R]

theorem fireReset_pending_length (L : Libm R) (i : Nat) (speed direction : R)
    (w w' : Simulation R) (h : fireReset L i speed direction w = some w') :
    w'.pending.length = w.pending.length := by
  unfold fireReset at h
  cases hget : w.pending.get? i with
  | none =>
    rw [hget] at h
    exact Option.noConfusion h
  | some e =>
    have hlt : i < w.pending.length := by
      obtain ⟨hi, -⟩ := List.get?_eq_some.1 hget
      exact hi
    rw [hget] at h
    cases hdelay : e.delay with
    | finite v =>
      simp only [hdelay, Option.some.injEq] at h
      rw [← h]
      show (w.pending.eraseIdx i).length + 1 = w.pending.length
      rw [List.length_eraseIdx_of_lt hlt]
      omega
    | posInf => simp [hdelay] at h
    | negInf => simp [hdelay] at h
    | nan => simp [hdelay] at h

theorem step_pending_length (L : Libm R) (a : Action R) (w w' : Simulation R)
    (h : step L w a = some w') : w'.pending.length = w.pending.length := by
  cases a with
  | fire i speed direction => exact fireReset_pending_length L i speed direction w w' h
  | get now =>
    simp only [step, Option.some.injEq] at h
    rw [← h]
  | set now position =>
    simp only [step, Option.some.injEq] at h
    rw [← h, DoSet_pending]

theorem run_pending_length (L : Libm R) (as : List (Action R)) (w w' : Simulation R)
    (h : run L as w = some w') : w'.pending.length = w.pending.length := by
  induction as generalizing w with
  | nil =>
    simp only [run, Option.some.injEq] at h
    rw [h]
  | cons a as ih =>
    unfold run at h
    cases hstep : step L w a with
    | none => simp [hstep] at h
    | some w1 =>
      rw [hstep] at h
      rw [ih w1 h, step_pending_length L a w w1 hstep]

/-- C14: every `Reset` makes exactly one course-change notification and exactly
one call of `Simulator::Schedule`; a freshly constructed model has one pending
`Reset` event, and so has every state `w'` reached from it by deliveries of
pending events, `DoGet` and `DoSet`.  The constructor without arguments is
the case `x = y = 0`. -/
theorem one_pending_Reset (L : Libm R) (g : DefaultValues R)
    (cache : Option (RandomWalkMobilityModelParameters R)) (t speed direction x y : R)
    (as : List (Action R)) (w' : Simulation R)
    (hrun : run L as (RandomWalkMobilityModel.constructAt L g cache t speed direction x y).1
      = some w') :
    (∀ (now s d : R) (w : Simulation R),
        (Reset L now s d w).courseChanges = w.courseChanges + 1 ∧
          (Reset L now s d w).pending.length = w.pending.length + 1) ∧
      (RandomWalkMobilityModel.constructAt L g cache t speed direction x y).1.pending.length
        = 1 ∧
      (RandomWalkMobilityModel.construct L g cache t speed direction).1.pending.length
        = 1 ∧
      w'.pending.length = 1 := by
  have h0 : ∀ a b : R,
      (RandomWalkMobilityModel.constructAt L g cache t speed direction a b).1.pending.length
        = 1 := by
    intro a b
    rw [constructAt_eq]
    rfl
  refine ⟨fun now s d w => ⟨rfl, rfl⟩, h0 x y, ?_, ?_⟩
  · rw [construct_eq_constructAt]
    exact h0 0 0
  · rw [run_pending_length L as _ w' hrun]
    exact h0 x y

end Chain

/-- C14 on a model constructed at time 0 under the defaults of the TIME
scenario: after a `DoGet`, the delivery of the pending `Reset` and a `DoSet`,
one `Reset` event is pending. -/
theorem one_pending_Reset_witness :
    (run (Libm.mk Real.cos Real.sin Real.sqrt)
        [Action.get 1, Action.fire 0 1 0, Action.set 6 (Position.mk 1 1 0)]
        (RandomWalkMobilityModel.constructAt (Libm.mk Real.cos Real.sin Real.sqrt)
          (timeDefaults ℝ) none 0 1 0 0 0).1).map
      (fun w => w.pending.length) = some 1 := by
  have hrun : run (Libm.mk Real.cos Real.sin Real.sqrt)
      [Action.get 1, Action.fire 0 1 0, Action.set 6 (Position.mk 1 1 0)]
      (RandomWalkMobilityModel.constructAt (Libm.mk Real.cos Real.sin Real.sqrt)
        (timeDefaults ℝ) none 0 1 0 0 0).1 =
      some (DoSet 6 (Position.mk 1 1 0)
        (Reset (Libm.mk Real.cos Real.sin Real.sqrt) (0 + 5) 1 0
          { model := (DoGet 1
              (RandomWalkMobilityModel.constructAt (Libm.mk Real.cos Real.sin Real.sqrt)
                (timeDefaults ℝ) none 0 1 0 0 0).1.model).2
            courseChanges := 1
            pending := [] })) := by
    rw [constructAt_eq]
    rfl
  rw [hrun]
  exact congrArg some
    (one_pending_Reset (Libm.mk Real.cos Real.sin Real.sqrt) (timeDefaults ℝ) none 0 1 0 0 0
      [Action.get 1, Action.fire 0 1 0, Action.set 6 (Position.mk 1 1 0)] _ hrun).2.2.2

end RandomWalk
